import Mathlib

/-!
Verification of the room-booking lifecycle engine of the department portal.

The definitions below are a shallow embedding of the Python source:
  * `src/features/rooms.py` — slot-label time parsing, booking, cancellation,
    waitlist processing, auto-expiry of elapsed bookings;
  * `src/utils/scheduler_utils.py` — the working-Saturday rule;
  * `src/features/finder.py` — the free-room finder;
  * `src/utils/audit.py`, `src/utils/io.py` — the append-only audit log.

Python dictionaries are modelled as association lists (insertion-ordered,
as in CPython), strings as `String`, and wall-clock instants as a weekday
name together with a time of day.  The `uuid4` identifiers of audit events
are modelled by a monotone counter supplying fresh ids.
-/

namespace Dept

/-! ## Character-level string helpers

Python string primitives used by the source (`str.split('-')`,
`'PM' in s`, `str.replace(sub, '')`, `int(s)`) are embedded as structurally
recursive functions over the character list of a `String`, so that every
definition evaluates inside the kernel. -/

/-- `s.split('-')`: split a character list at every occurrence of `c`. -/
def splitOnChar (c : Char) : List Char → List (List Char)
  | [] => [[]]
  | x :: xs =>
    let r := splitOnChar c xs
    if x == c then [] :: r
    else
      match r with
      | [] => [[x]]
      | h :: t => (x :: h) :: t

/-- `sub in s` for a two-character pattern `ab` (Python substring test). -/
def containsPair (a b : Char) : List Char → Bool
  | [] => false
  | [_] => false
  | x :: y :: rest => (x == a && y == b) || containsPair a b (y :: rest)

/-- `s.replace(ab, '')` for a two-character pattern: remove every
left-to-right non-overlapping occurrence of `ab`. -/
def removePair (a b : Char) : List Char → List Char
  | [] => []
  | [x] => [x]
  | x :: y :: rest =>
    if x == a && y == b then removePair a b rest
    else x :: removePair a b (y :: rest)

/-- `int(s)` restricted to non-empty all-digit strings; any other input is a
parse failure (in the source a raised `ValueError`, caught by the caller). -/
def digitsToNat? (l : List Char) : Option Nat :=
  if l.isEmpty then none
  else
    l.foldl (fun acc c =>
      match acc with
      | none => none
      | some n => if c.isDigit then some (n * 10 + (c.toNat - '0'.toNat)) else none)
      (some 0)

/-! ## Slot-label time parsing (`_slot_to_time_range`, rooms.py lines 37-63)

The source computes a single flag `is_pm = 'PM' in end_str` from the end
token and applies it to both hours; the `AM`/`PM` markers are then stripped
from both tokens.  `datetime.time` raises for an hour outside `0..23`,
which the surrounding `except` turns into a `(None, None)` result, so the
embedding returns `none` in that case. -/

/-- A time of day, hour and minute. -/
structure SimpleTime where
  hour : Nat
  minute : Nat
deriving DecidableEq

/-- `a >= b` on two times of the same calendar day. -/
def timeGe (a b : SimpleTime) : Bool :=
  a.hour > b.hour || (a.hour == b.hour && a.minute >= b.minute)

/-- Embedding of `_slot_to_time_range`; returns the 24-hour start and end
hours of the slot, or `none` on any parse failure. -/
def _slot_to_time_range (slot_str : String) : Option (Nat × Nat) :=
  match splitOnChar '-' slot_str.data with
  | [s0, e0] =>
    let is_pm := containsPair 'P' 'M' e0
    let s1 := removePair 'P' 'M' (removePair 'A' 'M' s0)
    let e1 := removePair 'P' 'M' (removePair 'A' 'M' e0)
    match digitsToNat? s1, digitsToNat? e1 with
    | some sh, some eh =>
      let start_hour := if is_pm && sh != 12 then sh + 12 else sh
      let (start_hour, end_hour) :=
        if is_pm && eh != 12 then (start_hour, eh + 12)
        else if !is_pm && start_hour == 12 then (0, eh)
        else if !is_pm && eh == 12 then (start_hour, 0)
        else (start_hour, eh)
      if start_hour ≤ 23 && end_hour ≤ 23 then some (start_hour, end_hour)
      else none
    | _, _ => none
  | _ => none

/-- A booked slot is auto-expired when its label parses and its end time is
not after the current instant (rooms.py line 204). -/
def shouldExpire (nowT : SimpleTime) (slot : String) : Bool :=
  match _slot_to_time_range slot with
  | some (_, endHour) => timeGe nowT ⟨endHour, 0⟩
  | none => false

/-! ## Working-Saturday rule (`is_working_saturday`, scheduler_utils.py)

A date is modelled inside its month by the weekday of the 1st of the month
(`0 = Monday .. 6 = Sunday`, Python's `date.weekday` convention) together
with the day of month; the weekday of day `d` is then
`(firstWd + (d - 1)) % 7`.  Python's `%` and `//` on these operands agree
with `Int`'s `%` (Euclidean, non-negative for positive modulus) and
`Int.fdiv` (floor). -/

/-- `check_date.weekday()` for day-of-month `day` in a month whose first
day falls on weekday `firstWd`. -/
def pyWeekday (firstWd day : Nat) : Nat :=
  (firstWd + (day - 1)) % 7

/-- The sequence number of a Saturday within its month, as computed by the
source: the first Saturday sits `(5 - weekday(1st)) % 7` days after the
1st, and Saturdays are numbered from there by floor division. -/
def saturdayNumber (firstWd day : Nat) : Int :=
  let days_until_saturday : Int := (5 - (firstWd : Int)) % 7
  let first_saturday : Int := 1 + days_until_saturday
  Int.fdiv ((day : Int) - first_saturday) 7 + 1

/-- Embedding of `is_working_saturday`: `true` for any non-Saturday, and
for a Saturday exactly when its sequence number differs from 3. -/
def is_working_saturday (firstWd day : Nat) : Bool :=
  if pyWeekday firstWd day != 5 then true
  else saturdayNumber firstWd day != 3

/-! ## Data model

`data/rooms.json` is the nested mapping room → day → slot → occupied; each
level is an insertion-ordered association list, as in CPython. -/

/-- One day's schedule: slot label → occupied. -/
abbrev Slots := List (String × Bool)

/-- One schedule entity: day name → slots. -/
abbrev DaySched := List (String × Slots)

/-- The whole rooms document: room name → day schedule. -/
abbrev RoomsData := List (String × DaySched)

/-- The defined-miss slot lookup: `none` when the room, day or slot key is
absent, otherwise the stored occupancy flag. -/
def lookupSlot (rooms : RoomsData) (room day slot : String) : Option Bool :=
  (rooms.lookup room).bind fun sched => (sched.lookup day).bind fun sl => sl.lookup slot

/-- `is_free(entity, day, slot)` of the Schedule Model contract: a missing
room, day or slot key is a defined miss treated as not free. -/
def is_free (rooms : RoomsData) (room day slot : String) : Bool :=
  match lookupSlot rooms room day slot with
  | none => false
  | some b => !b

/-- Replace the value stored under key `k` of an association list,
leaving keys and order untouched (a Python dict value assignment on an
existing key). -/
def updAssoc (l : List (String × β)) (k : String) (f : β → β) : List (String × β) :=
  l.map (fun p => (p.1, if p.1 == k then f p.2 else p.2))

/-- `data[room][day][slot] = v` on an existing key. -/
def setSlot (rooms : RoomsData) (room day slot : String) (v : Bool) : RoomsData :=
  updAssoc rooms room (fun sched => updAssoc sched day (fun sl => updAssoc sl slot (fun _ => v)))

/-! ## Audit log (`log_audit_event`, audit.py; `append_json_array`, io.py)

`append_json_array` reads the array, appends the new record and rewrites
the file, so at this level an append is `log ++ [event]`.  The `uuid4`
identifier is modelled by a fresh-id counter carried in the system state. -/

/-- The action-specific `details` payload of an audit event. -/
inductive AuditDetails where
  | bookInfo (title purpose : String) (attendees : Nat) (notifyMe : Bool)
  | cancelInfo (reason cancelled_at : String)
  | expireInfo (expired_at : String)
  | searchInfo (slots_count : Nat)
deriving DecidableEq

/-- An audit event as written by `log_audit_event`. -/
structure AuditEvent where
  id : Nat
  timestamp : String
  actor : String
  action : String
  entity_type : String
  entity_id : String
  details : AuditDetails
deriving DecidableEq

/-- Build the event record appended by `log_audit_event`. -/
def mkEvent (id : Nat) (timestamp actor action etype eid : String)
    (d : AuditDetails) : AuditEvent :=
  ⟨id, timestamp, actor, action, etype, eid, d⟩

/-- The composite `"{room}|{day}|{slot}"` entity identifier. -/
def entityId (room day slot : String) : String :=
  room ++ "|" ++ day ++ "|" ++ slot

/-- A `BookingHistoryRecord` (`update_booking_history`, rooms.py). -/
structure HistoryRecord where
  user_email : String
  room : String
  day : String
  slot : String
  action : String
  timestamp : String
deriving DecidableEq

/-- A record of one call into the notification boundary
(`send_booking_confirmation` / `send_booking_cancelled`). -/
structure SentNote where
  kind : String
  recipient : String
  room : String
  day : String
  slot : String
  reason : Option String
deriving DecidableEq

/-! ## Waitlist (`_process_waitlist`, rooms.py lines 110-144) -/

/-- A `data/waitlist.json` entry. -/
structure WaitlistEntry where
  id : String
  room : String
  day : String
  slot : String
  user_email : String
  user_role : String
  timestamp : String
  status : String
  notified_at : Option String
deriving DecidableEq

/-- The filter used to collect the waiting users of a slot. -/
def isWaitingFor (w : WaitlistEntry) (room day slot : String) : Bool :=
  w.room == room && w.day == day && w.slot == slot && w.status == "waiting"

/-- Python's `<` on strings: lexicographic comparison by code point. -/
def tsLt : List Char → List Char → Bool
  | [], [] => false
  | [], _ :: _ => true
  | _ :: _, [] => false
  | x :: xs, y :: ys => x.toNat < y.toNat || (x.toNat == y.toNat && tsLt xs ys)

/-- Strict string comparison on timestamps. -/
def strLt (a b : String) : Bool := tsLt a.data b.data

/-- Non-strict string comparison on timestamps (`a <= b` in Python). -/
def strLe (a b : String) : Bool := !(tsLt b.data a.data)

/-- Stable insertion into a timestamp-sorted list: an element goes before
the first strictly later entry, after all earlier-or-equal ones. -/
def insertByTs (w : WaitlistEntry) : List WaitlistEntry → List WaitlistEntry
  | [] => [w]
  | x :: xs =>
    if strLe w.timestamp x.timestamp then w :: x :: xs else x :: insertByTs w xs

/-- Stable sort by timestamp, embedding `list.sort(key=lambda x: x["timestamp"])`
(Python's sort is stable; ISO-8601 strings compare chronologically). -/
def sortByTs : List WaitlistEntry → List WaitlistEntry
  | [] => []
  | x :: xs => insertByTs x (sortByTs xs)

/-- Mark an entry notified (`w["status"] = "notified"; w["notified_at"] = now`). -/
def markNotified (w : WaitlistEntry) (now : String) : WaitlistEntry :=
  { w with status := "notified", notified_at := some now }

/-- Embedding of `_process_waitlist`: pick the earliest waiting entry for
the triple, mark every entry carrying its id notified, and return the
promoted user's email; with no waiting entry, a no-op returning `none`. -/
def _process_waitlist (wl : List WaitlistEntry) (room day slot now : String) :
    Option String × List WaitlistEntry :=
  let waiting := wl.filter (fun w => isWaitingFor w room day slot)
  match (sortByTs waiting).head? with
  | none => (none, wl)
  | some first =>
    (some first.user_email,
     wl.map (fun w => if w.id == first.id then markNotified w now else w))

/-! ## System state and the booking engine -/

/-- The mutable documents touched by the booking engine, together with the
fresh-id supply for audit events. -/
structure SysState where
  rooms : RoomsData
  audit : List AuditEvent
  history : List HistoryRecord
  waitlist : List WaitlistEntry
  sent : List SentNote
  nextId : Nat
deriving DecidableEq

/-- Outcome of `book_slot_logic`: success, the re-check failure
("Slot was just booked by someone else"), or the `KeyError` a missing
room/day key would raise in the source. -/
inductive BookResult where
  | booked
  | stale
  | keyError
deriving DecidableEq

/-- Embedding of `book_slot_logic` (rooms.py lines 618-665): re-check that
the slot is still free (a missing slot key defaults to booked), then flip
it, append the BOOK audit event and history record, and send the optional
confirmation. -/
def book_slot_logic (s : SysState) (room day slot actor title purpose : String)
    (attendees : Nat) (notifyMe : Bool) (now : String) : BookResult × SysState :=
  match s.rooms.lookup room with
  | none => (.keyError, s)
  | some sched =>
    match sched.lookup day with
    | none => (.keyError, s)
    | some sl =>
      if ((sl.lookup slot).getD true) = false then
        let title' := if title == "" then "Untitled Booking" else title
        let ev := mkEvent s.nextId now actor "BOOK" "ROOM_BOOKING"
          (entityId room day slot) (.bookInfo title' purpose attendees notifyMe)
        let hist : HistoryRecord := ⟨actor, room, day, slot, "BOOKED", now⟩
        let sent' := if notifyMe then
            s.sent ++ [⟨"confirmation", actor, room, day, slot, none⟩]
          else s.sent
        (.booked,
         { s with rooms := setSlot s.rooms room day slot true,
                  audit := s.audit ++ [ev],
                  history := s.history ++ [hist],
                  sent := sent',
                  nextId := s.nextId + 1 })
      else (.stale, s)

/-- Outcome of `_cancel_booking`: success carrying the promoted waitlist
user (if any), "Slot is not currently booked", or "Invalid booking
details" for a missing room/day/slot key. -/
inductive CancelResult where
  | cancelled (notified : Option String)
  | notBooked
  | invalidDetails
deriving DecidableEq

/-- Embedding of `_cancel_booking` (rooms.py lines 146-184): when the slot
exists and is occupied, free it, append the CANCEL audit event and history
record, notify the cancelling user and promote the waitlist; otherwise
fail leaving every document untouched. -/
def _cancel_booking (s : SysState) (room day slot actor reason now : String) :
    CancelResult × SysState :=
  match s.rooms.lookup room with
  | none => (.invalidDetails, s)
  | some sched =>
    match sched.lookup day with
    | none => (.invalidDetails, s)
    | some sl =>
      match sl.lookup slot with
      | none => (.invalidDetails, s)
      | some b =>
        if b then
          let ev := mkEvent s.nextId now actor "CANCEL" "ROOM_BOOKING"
            (entityId room day slot) (.cancelInfo reason now)
          let hist : HistoryRecord := ⟨actor, room, day, slot, "CANCELLED", now⟩
          let pw := _process_waitlist s.waitlist room day slot now
          (.cancelled pw.1,
           { rooms := setSlot s.rooms room day slot false,
             audit := s.audit ++ [ev],
             history := s.history ++ [hist],
             waitlist := pw.2,
             sent := s.sent ++ [⟨"cancelled", actor, room, day, slot, some reason⟩],
             nextId := s.nextId + 1 })
        else (.notBooked, s)

/-- Embedding of the SEARCH audit append performed by the finder's `main`
(finder.py lines 113-119). -/
def log_search (s : SysState) (actor dateStr slotsJoined : String)
    (slotsCount : Nat) (now : String) : SysState :=
  { s with
    audit := s.audit ++ [mkEvent s.nextId now actor "SEARCH" "FREE_ROOMS"
      (dateStr ++ "|" ++ slotsJoined) (.searchInfo slotsCount)],
    nextId := s.nextId + 1 }

/-! ## Auto-expiry (`_reset_expired_bookings`, rooms.py lines 186-221)

The sweep walks the rooms document in order; for every room having a
schedule for today's weekday it walks that day's slots in order, and each
booked slot whose label parses to an end time not after `now` is freed,
an AUTO_EXPIRE audit event is appended for the `SYSTEM` actor, the
human-readable `"{room} - {slot}"` string is collected, and the waitlist
of the freed slot is processed.  `nowIso` stands for the
`datetime.now().isoformat()` strings written into the records. -/

/-- The state threaded through the sweep: the audit log and waitlist
documents, the fresh-id supply, and the sweep's `expired_slots` /
`updated` accumulators. -/
structure ExpSt where
  audit : List AuditEvent
  wl : List WaitlistEntry
  nextId : Nat
  expired : List String
  updated : Bool
deriving DecidableEq

/-- Side effects of expiring one slot: audit append, expired-list append,
waitlist promotion, `updated = True`. -/
def expireOne (room weekday nowIso : String) (st : ExpSt) (slot : String) : ExpSt :=
  { audit := st.audit ++ [mkEvent st.nextId nowIso "SYSTEM" "AUTO_EXPIRE"
      "ROOM_BOOKING" (entityId room weekday slot) (.expireInfo nowIso)],
    wl := (_process_waitlist st.wl room weekday slot nowIso).2,
    nextId := st.nextId + 1,
    expired := st.expired ++ [room ++ " - " ++ slot],
    updated := true }

/-- Sweep one day's slot list, freeing every booked slot whose end time
has passed. -/
def expireDaySlots (room weekday nowIso : String) (nowT : SimpleTime) :
    Slots → ExpSt → Slots × ExpSt
  | [], st => ([], st)
  | (slot, b) :: rest, st =>
    if b && shouldExpire nowT slot then
      let st' := expireOne room weekday nowIso st slot
      let (rest', st'') := expireDaySlots room weekday nowIso nowT rest st'
      ((slot, false) :: rest', st'')
    else
      let (rest', st') := expireDaySlots room weekday nowIso nowT rest st
      ((slot, b) :: rest', st')

/-- Embedding of `_reset_expired_bookings`: sweep every room's schedule
for the current weekday. -/
def _reset_expired_bookings (rooms : RoomsData) (weekday : String)
    (nowT : SimpleTime) (nowIso : String) (st : ExpSt) : RoomsData × ExpSt :=
  match rooms with
  | [] => ([], st)
  | (room, sched) :: rest =>
    match sched.lookup weekday with
    | none =>
      let (rest', st') := _reset_expired_bookings rest weekday nowT nowIso st
      ((room, sched) :: rest', st')
    | some sl =>
      let (sl', st') := expireDaySlots room weekday nowIso nowT sl st
      let sched' := updAssoc sched weekday (fun _ => sl')
      let (rest', st'') := _reset_expired_bookings rest weekday nowT nowIso st'
      ((room, sched') :: rest', st'')

/-- The (room, slot) pairs freed within one day schedule, in slot order:
the booked slots whose end time has passed. -/
def dayPairs (room : String) (nowT : SimpleTime) (sl : Slots) : List (String × String) :=
  (sl.filter (fun p => p.2 && shouldExpire nowT p.1)).map (fun p => (room, p.1))

/-- The (room, slot) pairs the sweep frees, in sweep order. -/
def expiredPairs (rooms : RoomsData) (weekday : String) (nowT : SimpleTime) :
    List (String × String) :=
  match rooms with
  | [] => []
  | (room, sched) :: rest =>
    (match sched.lookup weekday with
     | none => []
     | some sl => dayPairs room nowT sl)
    ++ expiredPairs rest weekday nowT

/-- The occupancy transform one sweep applies to a day schedule: a slot
stays booked exactly when it was booked and has not expired. -/
def expireMapL (nowT : SimpleTime) (sl : Slots) : Slots :=
  sl.map (fun p => (p.1, p.2 && !shouldExpire nowT p.1))

/-- The transform one sweep applies to a room's schedule: the weekday's
slot list is replaced by its expired version when present. -/
def expireSched (weekday : String) (nowT : SimpleTime) (sched : DaySched) : DaySched :=
  match sched.lookup weekday with
  | none => sched
  | some sl => updAssoc sched weekday (fun _ => expireMapL nowT sl)

/-- The AUTO_EXPIRE events appended for a list of freed (room, slot)
pairs, with consecutively supplied fresh ids. -/
def expireEvents (n : Nat) (nowIso weekday : String) :
    List (String × String) → List AuditEvent
  | [] => []
  | rp :: rest =>
    mkEvent n nowIso "SYSTEM" "AUTO_EXPIRE" "ROOM_BOOKING"
      (entityId rp.1 weekday rp.2) (.expireInfo nowIso) :: expireEvents (n + 1) nowIso weekday rest

/-- Apply the per-slot expiry side effects for a list of freed pairs. -/
def applyExpiry (weekday nowIso : String) (ps : List (String × String))
    (st : ExpSt) : ExpSt :=
  ps.foldl (fun st rp => expireOne rp.1 weekday nowIso st rp.2) st

/-! ## Free-room finder (`find_free_rooms` and the partial-match report,
finder.py lines 27-55 and 164-179) -/

/-- Fold a room-wise optional result into the accumulated report list,
embedding the loops' conditional `append` / `continue` shape. -/
def accumOpt (g : String × DaySched → Option β) (rooms : RoomsData) : List β :=
  rooms.foldl (fun acc p =>
    match g p with
    | some b => acc ++ [b]
    | none => acc) []

/-- The inner loop of `find_free_rooms`: collect the requested slots in
order as long as each exists and is free; the first miss aborts
(`all_free = False; break`). -/
def collectFree (room_slots : Slots) : List String → Option (List String)
  | [] => some []
  | slot :: rest =>
    if room_slots.lookup slot == some false then
      (collectFree room_slots rest).map (slot :: ·)
    else none

/-- One room's entry in the full-match result, if any. -/
def roomMatchEntry (day : String) (sel : List String) (p : String × DaySched) :
    Option (String × List String) :=
  (p.2.lookup day).bind fun rs =>
    (collectFree rs sel).bind fun avail =>
      if avail.isEmpty then none else some (p.1, avail)

/-- Embedding of `find_free_rooms`. -/
def find_free_rooms (rooms : RoomsData) (day : String) (sel : List String) :
    List (String × List String) :=
  accumOpt (roomMatchEntry day sel) rooms

/-- The requested slots free in a room (`slot in room_slots and not
room_slots[slot]`). -/
def freeRequested (rs : Slots) (sel : List String) : List String :=
  sel.filter (fun slot => rs.lookup slot == some false)

/-- The requested slots reported unavailable for a partial match. -/
def unavailRequested (rs : Slots) (sel avail : List String) : List String :=
  sel.filter (fun slot => !(avail.contains slot) || (rs.lookup slot).getD true)

/-- One room's entry in the partial-match report, if any: some but not
all requested slots free. -/
def roomPartEntry (day : String) (sel : List String) (p : String × DaySched) :
    Option (String × List String × List String) :=
  (p.2.lookup day).bind fun rs =>
    if 0 < (freeRequested rs sel).length ∧ (freeRequested rs sel).length < sel.length then
      some (p.1, freeRequested rs sel, unavailRequested rs sel (freeRequested rs sel))
    else none

/-- Embedding of the alternative-suggestions loop building `partial_rooms`
in the finder's `main`. -/
def partly_free_rooms (rooms : RoomsData) (day : String) (sel : List String) :
    List (String × List String × List String) :=
  accumOpt (roomPartEntry day sel) rooms

/-! ## Statement apparatus for the parsing claim -/

/-- A slot label `"<sh><AM|PM>-<eh><AM|PM>"` built from its parts
(`true` stands for a PM marker). -/
def mkLabel (sh : Nat) (m1 : Bool) (eh : Nat) (m2 : Bool) : String :=
  toString sh ++ (if m1 then "PM" else "AM") ++ "-" ++
    toString eh ++ (if m2 then "PM" else "AM")

/-- The hour conversion the source actually performs, driven by the single
flag taken from the end token: with a PM end, each hour other than 12 gets
+12; with an AM end, a start of 12 becomes 0, otherwise an end of 12
becomes 0. -/
def applyEndMeridiem (sh eh : Nat) (pmEnd : Bool) : Nat × Nat :=
  let sh1 := if pmEnd && sh != 12 then sh + 12 else sh
  if pmEnd && eh != 12 then (sh1, eh + 12)
  else if !pmEnd && sh1 == 12 then (0, eh)
  else if !pmEnd && eh == 12 then (sh1, 0)
  else (sh1, eh)

/-! ## Concrete data for the witnesses -/

/-- A small system state: one room with a free and a booked Monday slot. -/
def stW : SysState :=
  { rooms := [("Room1", [("Monday", [("9AM-10AM", false), ("10AM-11AM", true)])])],
    audit := [], history := [], waitlist := [], sent := [], nextId := 0 }

/-- Two rooms, each free in one of two Monday slots. -/
def roomsABW : RoomsData :=
  [("A", [("Monday", [("9AM-10AM", false), ("10AM-11AM", true)])]),
   ("B", [("Monday", [("9AM-10AM", true), ("10AM-11AM", false)])])]

/-- One room whose Monday schedule holds two elapsed bookings and one
booked slot with an unparseable label. -/
def expW : RoomsData :=
  [("R", [("Monday", [("9AM-10AM", true), ("10AM-11AM", true), ("bogus", true)])])]

/-- The earlier waitlist entry. -/
def e1W : WaitlistEntry :=
  ⟨"w1", "R", "Monday", "9AM-10AM", "first@dept.edu", "Teacher",
    "2025-01-01T10:00:00", "waiting", none⟩

/-- The later waitlist entry. -/
def e2W : WaitlistEntry :=
  ⟨"w2", "R", "Monday", "9AM-10AM", "second@dept.edu", "Teacher",
    "2025-01-02T10:00:00", "waiting", none⟩

/-- A waitlist holding the two entries out of join order. -/
def wlW : List WaitlistEntry := [e2W, e1W]

/-! ## Lemmas: association-list updates -/

theorem lookup_updAssoc (l : List (String × β)) (k : String) (f : β → β) (k' : String) :
    List.lookup k' (updAssoc l k f) = (List.lookup k' l).map (fun v => if k' == k then f v else v) := by
  induction l with
  | nil => rfl
  | cons p rest ih =>
    simp only [updAssoc, List.map_cons, List.lookup]
    cases hkp : (k' == p.1) with
    | true =>
      have h' : k' = p.1 := eq_of_beq hkp
      subst h'
      simp
    | false => simpa [updAssoc] using ih

theorem lookup_updAssoc_self (l : List (String × β)) (k : String) (f : β → β) :
    List.lookup k (updAssoc l k f) = (List.lookup k l).map f := by
  simp [lookup_updAssoc]

theorem lookup_updAssoc_other (l : List (String × β)) (k : String) (f : β → β)
    (k' : String) (h : (k' == k) = false) :
    List.lookup k' (updAssoc l k f) = List.lookup k' l := by
  simp only [lookup_updAssoc, h]
  cases List.lookup k' l <;> simp

theorem lookupSlot_setSlot_self (rooms : RoomsData) (room day slot : String) (v : Bool) :
    lookupSlot (setSlot rooms room day slot v) room day slot =
      (lookupSlot rooms room day slot).map (fun _ => v) := by
  simp only [lookupSlot, setSlot, lookup_updAssoc_self]
  cases hr : rooms.lookup room with
  | none => simp
  | some sched =>
    simp only [Option.map_some', Option.some_bind]
    rw [lookup_updAssoc_self]
    cases hd : sched.lookup day with
    | none => simp
    | some sl =>
      simp only [Option.map_some', Option.some_bind]
      rw [lookup_updAssoc_self]

theorem lookupSlot_destruct {rooms : RoomsData} {room day slot : String} {b : Bool}
    (h : lookupSlot rooms room day slot = some b) :
    ∃ sched sl, rooms.lookup room = some sched ∧ sched.lookup day = some sl ∧
      sl.lookup slot = some b := by
  unfold lookupSlot at h
  cases hr : rooms.lookup room with
  | none => rw [hr] at h; exact absurd h (by simp)
  | some sched =>
    rw [hr] at h
    simp only [Option.some_bind] at h
    cases hd : sched.lookup day with
    | none => rw [hd] at h; exact absurd h (by simp)
    | some sl =>
      rw [hd] at h
      simp only [Option.some_bind] at h
      exact ⟨sched, sl, rfl, hd, h⟩

/-! ## Lemmas: the lexicographic timestamp order -/

theorem tsLt_irrefl (a : List Char) : tsLt a a = false := by
  induction a with
  | nil => rfl
  | cons x xs ih => simp [tsLt, ih]

theorem tsLt_asymm {a b : List Char} (h : tsLt a b = true) : tsLt b a = false := by
  induction a generalizing b with
  | nil =>
    cases b with
    | nil => simp [tsLt] at h
    | cons y ys => simp [tsLt]
  | cons x xs ih =>
    cases b with
    | nil => simp [tsLt] at h
    | cons y ys =>
      simp only [tsLt, Bool.or_eq_true, Bool.and_eq_true, beq_iff_eq,
        decide_eq_true_eq] at h
      simp only [tsLt, Bool.or_eq_false_iff, Bool.and_eq_false_iff,
        decide_eq_false_iff_not, beq_eq_false_iff_ne, ne_eq]
      rcases h with h | ⟨he, ht⟩
      · exact ⟨by omega, Or.inl (by omega)⟩
      · exact ⟨by omega, Or.inr (ih ht)⟩

theorem tsLt_resolve {c a b : List Char} (h1 : tsLt c a = true) (h2 : tsLt c b = false) :
    tsLt b a = true := by
  induction c generalizing a b with
  | nil =>
    cases a with
    | nil => simp [tsLt] at h1
    | cons y ys =>
      cases b with
      | nil => simp [tsLt]
      | cons z zs => simp [tsLt] at h2
  | cons x xs ih =>
    cases a with
    | nil => simp [tsLt] at h1
    | cons y ys =>
      cases b with
      | nil => simp [tsLt]
      | cons z zs =>
        simp only [tsLt, Bool.or_eq_true, Bool.and_eq_true, beq_iff_eq,
          decide_eq_true_eq] at h1 ⊢
        simp only [tsLt, Bool.or_eq_false_iff, Bool.and_eq_false_iff,
          decide_eq_false_iff_not, beq_eq_false_iff_ne, ne_eq] at h2
        rcases h2 with ⟨h2a, h2b⟩
        rcases h1 with h1 | ⟨h1e, h1t⟩
        · left; omega
        · by_cases hzx : z.toNat = x.toNat
          · right
            refine ⟨by omega, ?_⟩
            rcases h2b with h2b | h2b
            · exact absurd hzx (fun hh => h2b hh.symm)
            · exact ih h1t h2b
          · left; omega

theorem strLe_refl (a : String) : strLe a a = true := by
  simp [strLe, tsLt_irrefl]

theorem strLe_total {a b : String} (h : strLe a b = false) : strLe b a = true := by
  have h' : tsLt b.data a.data = true := by
    revert h; simp [strLe]
  simp [strLe, tsLt_asymm h']

theorem strLe_trans {a b c : String} (h1 : strLe a b = true) (h2 : strLe b c = true) :
    strLe a c = true := by
  simp only [strLe, Bool.not_eq_true'] at h1 h2 ⊢
  cases hca : tsLt c.data a.data with
  | false => rfl
  | true => exact absurd (tsLt_resolve hca h2) (by simp [h1])

/-! ## Lemmas: the stable timestamp sort -/

theorem mem_insertByTs {a w : WaitlistEntry} {l : List WaitlistEntry} :
    a ∈ insertByTs w l ↔ a = w ∨ a ∈ l := by
  induction l with
  | nil => simp [insertByTs]
  | cons x xs ih =>
    simp only [insertByTs]
    split
    · simp only [List.mem_cons]
    · simp only [List.mem_cons, ih]
      tauto

theorem mem_sortByTs {a : WaitlistEntry} {l : List WaitlistEntry} :
    a ∈ sortByTs l ↔ a ∈ l := by
  induction l with
  | nil => simp [sortByTs]
  | cons x xs ih => simp [sortByTs, mem_insertByTs, ih]

theorem sortByTs_head_min {l : List WaitlistEntry} (h : l ≠ []) :
    ∃ w, (sortByTs l).head? = some w ∧ w ∈ l ∧
      ∀ v ∈ l, strLe w.timestamp v.timestamp = true := by
  induction l with
  | nil => exact absurd rfl h
  | cons x xs ih =>
    by_cases hxs : xs = []
    · subst hxs
      refine ⟨x, by simp [sortByTs, insertByTs], by simp, ?_⟩
      intro v hv
      rcases List.mem_cons.mp hv with rfl | hv
      · exact strLe_refl _
      · simp at hv
    · obtain ⟨w0, hw0h, hw0m, hw0min⟩ := ih hxs
      cases hs : sortByTs xs with
      | nil => rw [hs] at hw0h; simp at hw0h
      | cons w0' t =>
        have hw0' : w0' = w0 := by
          rw [hs] at hw0h
          simpa using hw0h
        subst hw0'
        have hsx : sortByTs (x :: xs) = insertByTs x (sortByTs xs) := rfl
        by_cases hc : strLe x.timestamp w0'.timestamp = true
        · refine ⟨x, ?_, List.mem_cons_self x xs, ?_⟩
          · rw [hsx, hs]
            simp [insertByTs, hc]
          · intro v hv
            rcases List.mem_cons.mp hv with rfl | hv
            · exact strLe_refl _
            · exact strLe_trans hc (hw0min v hv)
        · have hc' : strLe x.timestamp w0'.timestamp = false := by
            cases hcc : strLe x.timestamp w0'.timestamp with
            | false => rfl
            | true => exact absurd hcc hc
          refine ⟨w0', ?_, List.mem_cons_of_mem x hw0m, ?_⟩
          · rw [hsx, hs]
            simp [insertByTs, hc']
          · intro v hv
            rcases List.mem_cons.mp hv with rfl | hv
            · exact strLe_total hc'
            · exact hw0min v hv

theorem markNotified_not_waiting (y : WaitlistEntry) (room day slot now : String) :
    isWaitingFor (markNotified y now) room day slot = false := by
  have h : (("notified" : String) == "waiting") = false := by decide
  simp [isWaitingFor, markNotified, h]

/-- C4: waitlist promotion is FIFO and at most one entry per release:
with no waiting entry `Promote` is a no-op returning no user; otherwise it
returns the earliest waiting entry's email and changes exactly that entry
to notified; and with two entries joined at `t1 < t2`, the first release
promotes the `t1` entry and a second release promotes the `t2` entry. -/
theorem waitlist_promotion_fifo (wl : List WaitlistEntry) (room day slot now now2 : String) :
    ((∀ w ∈ wl, isWaitingFor w room day slot = false) →
      _process_waitlist wl room day slot now = (none, wl))
    ∧ ((wl.map (fun w => w.id)).Nodup →
       ∀ w0 ∈ wl, isWaitingFor w0 room day slot = true →
       ∃ w ∈ wl, isWaitingFor w room day slot = true ∧
         (∀ v ∈ wl, isWaitingFor v room day slot = true →
            strLe w.timestamp v.timestamp = true) ∧
         _process_waitlist wl room day slot now =
           (some w.user_email, wl.map (fun x => if x = w then markNotified x now else x)))
    ∧ (∀ e1 e2 : WaitlistEntry, e1 ∈ wl → e2 ∈ wl →
       isWaitingFor e1 room day slot = true → isWaitingFor e2 room day slot = true →
       strLt e1.timestamp e2.timestamp = true → e1.id ≠ e2.id →
       (∀ w ∈ wl, isWaitingFor w room day slot = true → w = e1 ∨ w = e2) →
       (_process_waitlist wl room day slot now).1 = some e1.user_email ∧
       (_process_waitlist (_process_waitlist wl room day slot now).2 room day slot now2).1
         = some e2.user_email) := by
  refine ⟨?_, ?_, ?_⟩
  · -- no waiting entry: no-op
    intro h
    have hfil : wl.filter (fun w => isWaitingFor w room day slot) = [] :=
      List.filter_eq_nil_iff.mpr (fun a ha => by simp [h a ha])
    simp [_process_waitlist, hfil, sortByTs]
  · -- earliest selection, single mark
    intro hnd w0 hw0 hw0w
    have hw0f : w0 ∈ wl.filter (fun w => isWaitingFor w room day slot) :=
      List.mem_filter.mpr ⟨hw0, hw0w⟩
    obtain ⟨w, hwh, hwmem, hwmin⟩ :=
      sortByTs_head_min (l := wl.filter (fun w => isWaitingFor w room day slot))
        (by intro hnil; rw [hnil] at hw0f; simp at hw0f)
    obtain ⟨hwwl, hww⟩ := List.mem_filter.mp hwmem
    refine ⟨w, hwwl, hww, ?_, ?_⟩
    · intro v hv hvw
      exact hwmin v (List.mem_filter.mpr ⟨hv, hvw⟩)
    · simp only [_process_waitlist]
      rw [hwh]
      refine congrArg _ (List.map_congr_left ?_)
      intro a ha
      by_cases hae : a = w
      · subst hae
        simp
      · have hid : (a.id == w.id) = false := by
          cases hh : (a.id == w.id) with
          | false => rfl
          | true =>
            exact absurd (List.inj_on_of_nodup_map hnd ha hwwl (eq_of_beq hh)) hae
        simp [hid, hae]
  · -- FIFO across two releases
    intro e1 e2 he1 he2 hw1 hw2 hlt hid hall
    have he1f : e1 ∈ wl.filter (fun w => isWaitingFor w room day slot) :=
      List.mem_filter.mpr ⟨he1, hw1⟩
    obtain ⟨w, hwh, hwmem, hwmin⟩ :=
      sortByTs_head_min (l := wl.filter (fun w => isWaitingFor w room day slot))
        (by intro hnil; rw [hnil] at he1f; simp at he1f)
    obtain ⟨hwwl, hww⟩ := List.mem_filter.mp hwmem
    have hwe1 : w = e1 := by
      rcases hall w hwwl hww with h | h
      · exact h
      · subst h
        have hle : strLe w.timestamp e1.timestamp = true := hwmin e1 he1f
        have : strLe w.timestamp e1.timestamp = false := by
          simp only [strLe, Bool.not_eq_true']
          simpa [strLt] using hlt
        rw [this] at hle
        exact absurd hle (by simp)
    subst hwe1
    have h1 : _process_waitlist wl room day slot now =
        (some w.user_email,
         wl.map (fun x => if x.id == w.id then markNotified x now else x)) := by
      simp only [_process_waitlist]
      rw [hwh]
    constructor
    · rw [h1]
    · rw [h1]
      have he2id : (e2.id == w.id) = false :=
        beq_eq_false_iff_ne.mpr (fun hh => hid hh.symm)
      have he2m : e2 ∈ wl.map (fun x => if x.id == w.id then markNotified x now else x) := by
        have : (fun x => if x.id == w.id then markNotified x now else x) e2 = e2 := by
          simp [he2id]
        rw [← this]
        exact List.mem_map_of_mem _ he2
      have he2f : e2 ∈ (wl.map (fun x => if x.id == w.id then markNotified x now else x)).filter
          (fun v => isWaitingFor v room day slot) :=
        List.mem_filter.mpr ⟨he2m, hw2⟩
      obtain ⟨w2, hw2h, hw2mem, _⟩ :=
        sortByTs_head_min
          (l := (wl.map (fun x => if x.id == w.id then markNotified x now else x)).filter
            (fun v => isWaitingFor v room day slot))
          (by intro hnil; rw [hnil] at he2f; simp at he2f)
      obtain ⟨hw2wl, hw2w⟩ := List.mem_filter.mp hw2mem
      obtain ⟨y, hy, hyx⟩ := List.mem_map.mp hw2wl
      have hw2e2 : w2 = e2 := by
        by_cases hyid : (y.id == w.id) = true
        · rw [if_pos hyid] at hyx
          rw [← hyx] at hw2w
          rw [markNotified_not_waiting] at hw2w
          exact absurd hw2w (by simp)
        · rw [if_neg hyid] at hyx
          subst hyx
          rcases hall y hy hw2w with h | h
          · subst h
            exact absurd (beq_self_eq_true y.id) hyid
          · exact h
      subst hw2e2
      simp only [_process_waitlist]
      rw [hw2h]

/-! ## Lemmas: booking and cancellation -/

theorem book_succeeds {s : SysState} {room day slot : String} {sched : DaySched} {sl : Slots}
    (actor title purpose now : String) (attendees : Nat) (notifyMe : Bool)
    (h1 : s.rooms.lookup room = some sched) (h2 : sched.lookup day = some sl)
    (h3 : sl.lookup slot = some false) :
    book_slot_logic s room day slot actor title purpose attendees notifyMe now =
      (BookResult.booked,
       { s with rooms := setSlot s.rooms room day slot true,
                audit := s.audit ++ [mkEvent s.nextId now actor "BOOK" "ROOM_BOOKING"
                  (entityId room day slot)
                  (.bookInfo (if title == "" then "Untitled Booking" else title)
                    purpose attendees notifyMe)],
                history := s.history ++ [⟨actor, room, day, slot, "BOOKED", now⟩],
                sent := if notifyMe then
                    s.sent ++ [⟨"confirmation", actor, room, day, slot, none⟩]
                  else s.sent,
                nextId := s.nextId + 1 }) := by
  simp [book_slot_logic, h1, h2, h3]

theorem book_stale {s : SysState} {room day slot : String} {sched : DaySched} {sl : Slots}
    (actor title purpose now : String) (attendees : Nat) (notifyMe : Bool)
    (h1 : s.rooms.lookup room = some sched) (h2 : sched.lookup day = some sl)
    (h3 : sl.lookup slot = some true) :
    book_slot_logic s room day slot actor title purpose attendees notifyMe now =
      (BookResult.stale, s) := by
  simp [book_slot_logic, h1, h2, h3]

theorem cancel_succeeds {s : SysState} {room day slot : String} {sched : DaySched} {sl : Slots}
    (actor reason now : String)
    (h1 : s.rooms.lookup room = some sched) (h2 : sched.lookup day = some sl)
    (h3 : sl.lookup slot = some true) :
    _cancel_booking s room day slot actor reason now =
      (CancelResult.cancelled (_process_waitlist s.waitlist room day slot now).1,
       { rooms := setSlot s.rooms room day slot false,
         audit := s.audit ++ [mkEvent s.nextId now actor "CANCEL" "ROOM_BOOKING"
           (entityId room day slot) (.cancelInfo reason now)],
         history := s.history ++ [⟨actor, room, day, slot, "CANCELLED", now⟩],
         waitlist := (_process_waitlist s.waitlist room day slot now).2,
         sent := s.sent ++ [⟨"cancelled", actor, room, day, slot, some reason⟩],
         nextId := s.nextId + 1 }) := by
  simp [_cancel_booking, h1, h2, h3]

theorem cancel_invalid_room {s : SysState} {room : String} (day slot actor reason now : String)
    (h1 : s.rooms.lookup room = none) :
    _cancel_booking s room day slot actor reason now = (CancelResult.invalidDetails, s) := by
  simp [_cancel_booking, h1]

theorem cancel_invalid_day {s : SysState} {room day : String} {sched : DaySched}
    (slot actor reason now : String)
    (h1 : s.rooms.lookup room = some sched) (h2 : sched.lookup day = none) :
    _cancel_booking s room day slot actor reason now = (CancelResult.invalidDetails, s) := by
  simp [_cancel_booking, h1, h2]

theorem cancel_invalid_slot {s : SysState} {room day slot : String} {sched : DaySched}
    {sl : Slots} (actor reason now : String)
    (h1 : s.rooms.lookup room = some sched) (h2 : sched.lookup day = some sl)
    (h3 : sl.lookup slot = none) :
    _cancel_booking s room day slot actor reason now = (CancelResult.invalidDetails, s) := by
  simp [_cancel_booking, h1, h2, h3]

theorem cancel_not_booked {s : SysState} {room day slot : String} {sched : DaySched}
    {sl : Slots} (actor reason now : String)
    (h1 : s.rooms.lookup room = some sched) (h2 : sched.lookup day = some sl)
    (h3 : sl.lookup slot = some false) :
    _cancel_booking s room day slot actor reason now = (CancelResult.notBooked, s) := by
  simp [_cancel_booking, h1, h2, h3]

/-- C1: after a successful `Book(r,d,s)`, the slot reads as not free, and
a second `Book(r,d,s)` by any actor fails with the stale re-check error
leaving the whole state (in particular the schedule) unmodified. -/
theorem book_then_rebook_stale (s : SysState) (room day slot : String)
    (a1 t1 p1 now1 a2 t2 p2 now2 : String) (att1 att2 : Nat) (nm1 nm2 : Bool)
    (hfree : lookupSlot s.rooms room day slot = some false) :
    (book_slot_logic s room day slot a1 t1 p1 att1 nm1 now1).1 = BookResult.booked
    ∧ is_free (book_slot_logic s room day slot a1 t1 p1 att1 nm1 now1).2.rooms
        room day slot = false
    ∧ book_slot_logic (book_slot_logic s room day slot a1 t1 p1 att1 nm1 now1).2
        room day slot a2 t2 p2 att2 nm2 now2
      = (BookResult.stale, (book_slot_logic s room day slot a1 t1 p1 att1 nm1 now1).2) := by
  obtain ⟨sched, sl, h1, h2, h3⟩ := lookupSlot_destruct hfree
  rw [book_succeeds a1 t1 p1 now1 att1 nm1 h1 h2 h3]
  have hlook : lookupSlot (setSlot s.rooms room day slot true) room day slot = some true := by
    rw [lookupSlot_setSlot_self, hfree]
    rfl
  obtain ⟨sched', sl', h1', h2', h3'⟩ := lookupSlot_destruct hlook
  refine ⟨rfl, ?_, ?_⟩
  · simp [is_free, hlook]
  · exact book_stale a2 t2 p2 now2 att2 nm2 h1' h2' h3'

/-- C2: booking a free slot and then cancelling it restores the slot to
free, with the cancellation succeeding. -/
theorem book_cancel_round_trip (s : SysState) (room day slot : String)
    (a1 t1 p1 now1 a2 reason now2 : String) (att : Nat) (nm : Bool)
    (hfree : lookupSlot s.rooms room day slot = some false) :
    (∃ notified, (_cancel_booking (book_slot_logic s room day slot a1 t1 p1 att nm now1).2
        room day slot a2 reason now2).1 = CancelResult.cancelled notified)
    ∧ is_free (_cancel_booking (book_slot_logic s room day slot a1 t1 p1 att nm now1).2
        room day slot a2 reason now2).2.rooms room day slot = true := by
  obtain ⟨sched, sl, h1, h2, h3⟩ := lookupSlot_destruct hfree
  rw [book_succeeds a1 t1 p1 now1 att nm h1 h2 h3]
  set s1 : SysState :=
    { s with rooms := setSlot s.rooms room day slot true,
             audit := s.audit ++ [mkEvent s.nextId now1 a1 "BOOK" "ROOM_BOOKING"
               (entityId room day slot)
               (.bookInfo (if t1 == "" then "Untitled Booking" else t1) p1 att nm)],
             history := s.history ++ [⟨a1, room, day, slot, "BOOKED", now1⟩],
             sent := if nm then
                 s.sent ++ [⟨"confirmation", a1, room, day, slot, none⟩]
               else s.sent,
             nextId := s.nextId + 1 } with hs1
  have hlook : lookupSlot s1.rooms room day slot = some true := by
    rw [hs1]
    rw [lookupSlot_setSlot_self, hfree]
    rfl
  obtain ⟨sched', sl', h1', h2', h3'⟩ := lookupSlot_destruct hlook
  rw [cancel_succeeds a2 reason now2 h1' h2' h3']
  refine ⟨⟨_, rfl⟩, ?_⟩
  have : lookupSlot (setSlot s1.rooms room day slot false) room day slot = some false := by
    rw [lookupSlot_setSlot_self, hlook]
    rfl
  simp [is_free, this]

/-- C9: a cancellation whose precondition fails — slot not occupied, or
missing room/day/slot key — returns the corresponding failure and leaves
every document (schedule, audit log, history, waitlist, notifications)
untouched; a missing key is a defined miss, not a crash. -/
theorem cancel_failure_atomic (s : SysState) (room day slot actor reason now : String) :
    (lookupSlot s.rooms room day slot = some false →
      _cancel_booking s room day slot actor reason now = (CancelResult.notBooked, s))
    ∧ (lookupSlot s.rooms room day slot = none →
      _cancel_booking s room day slot actor reason now = (CancelResult.invalidDetails, s)) := by
  constructor
  · intro h
    obtain ⟨sched, sl, h1, h2, h3⟩ := lookupSlot_destruct h
    exact cancel_not_booked actor reason now h1 h2 h3
  · intro h
    unfold lookupSlot at h
    cases h1 : s.rooms.lookup room with
    | none => exact cancel_invalid_room day slot actor reason now h1
    | some sched =>
      rw [h1] at h
      simp only [Option.some_bind] at h
      cases h2 : sched.lookup day with
      | none => exact cancel_invalid_day slot actor reason now h1 h2
      | some sl =>
        rw [h2] at h
        simp only [Option.some_bind] at h
        cases h3 : sl.lookup slot with
        | none => exact cancel_invalid_slot actor reason now h1 h2 h3
        | some b => rw [h3] at h; exact absurd h (by simp)

/-! ## C7: the third-Saturday holiday rule -/

/-- C7: a date is a holiday Saturday exactly when it falls on a Saturday
whose sequence number — first Saturday at offset `(5 - weekday(1st)) % 7`
from the 1st, numbered from there — equals 3; in a month whose 1st is a
Saturday, day 15 is the holiday while days 8 and 22 are working. -/
theorem third_saturday_holiday :
    (∀ firstWd day : Nat,
      is_working_saturday firstWd day = false ↔
        (pyWeekday firstWd day = 5 ∧ saturdayNumber firstWd day = 3))
    ∧ is_working_saturday 5 15 = false
    ∧ is_working_saturday 5 8 = true
    ∧ is_working_saturday 5 22 = true := by
  refine ⟨?_, by decide, by decide, by decide⟩
  intro fw d
  by_cases h : pyWeekday fw d = 5
  · simp [is_working_saturday, h]
  · simp [is_working_saturday, h]

/-! ## C3: slot-label parsing and the meridiem flag -/

/-- C3 counterexample: the parser applies the end token's PM marker to the
start hour as well, so `"11AM-12PM"` parses to start hour 23, not the
morning hour 11 the per-token rule would give. -/
theorem slot_parse_per_token_cex :
    _slot_to_time_range "11AM-12PM" = some (23, 12)
    ∧ _slot_to_time_range "11AM-12PM" ≠ some (11, 12) := by
  exact ⟨by decide, by decide⟩

/-- C3 amended: for every well-formed label the parser converts both hours
using the single AM/PM flag of the end token (`applyEndMeridiem`); the
three example labels parse as the spec states. -/
theorem slot_parse_uses_end_meridiem :
    (∀ sh eh : Nat, ∀ m1 m2 : Bool, 1 ≤ sh → sh ≤ 12 → 1 ≤ eh → eh ≤ 12 →
      _slot_to_time_range (mkLabel sh m1 eh m2) = some (applyEndMeridiem sh eh m2))
    ∧ _slot_to_time_range "9AM-10AM" = some (9, 10)
    ∧ _slot_to_time_range "12PM-1PM" = some (12, 13)
    ∧ _slot_to_time_range "12AM-1AM" = some (0, 1) := by
  refine ⟨?_, by decide, by decide, by decide⟩
  intro sh eh m1 m2 h1 h2 h3 h4
  interval_cases sh <;> interval_cases eh <;> cases m1 <;> cases m2 <;> decide

/-! ## C8: the free-room finder -/

theorem accumOpt_eq_filterMap (g : String × DaySched → Option β) (rooms : RoomsData) :
    accumOpt g rooms = rooms.filterMap g := by
  suffices h : ∀ init : List β,
      rooms.foldl (fun acc p => match g p with | some b => acc ++ [b] | none => acc) init
        = init ++ rooms.filterMap g by
    simpa [accumOpt] using h []
  induction rooms with
  | nil => intro init; simp
  | cons p rest ih =>
    intro init
    simp only [List.foldl_cons, List.filterMap_cons]
    cases hg : g p with
    | none => simpa using ih init
    | some b =>
      rw [ih (init ++ [b])]
      simp

theorem collectFree_eq_some_iff {rs : Slots} {sel : List String} {l : List String} :
    collectFree rs sel = some l ↔
      (l = sel ∧ ∀ slot ∈ sel, rs.lookup slot = some false) := by
  induction sel generalizing l with
  | nil => simp [collectFree, eq_comm]
  | cons s rest ih =>
    simp only [collectFree]
    cases hc : (rs.lookup s == some false) with
    | true =>
      have hc' : rs.lookup s = some false := eq_of_beq hc
      simp only [if_true, Option.map_eq_some']
      constructor
      · rintro ⟨l', hl', rfl⟩
        obtain ⟨rfl, hall⟩ := ih.mp hl'
        refine ⟨rfl, ?_⟩
        intro slot hs
        rcases List.mem_cons.mp hs with rfl | hs
        · exact hc'
        · exact hall _ hs
      · rintro ⟨rfl, hall⟩
        exact ⟨rest, ih.mpr ⟨rfl, fun slot hs => hall slot (List.mem_cons_of_mem _ hs)⟩, rfl⟩
    | false =>
      constructor
      · intro h
        exact absurd h (by simp)
      · rintro ⟨rfl, hall⟩
        have := hall s (List.mem_cons_self s rest)
        rw [this] at hc
        simp at hc

/-- C8 counterexample: with an empty requested slot set, every requested
slot of a room with a Monday schedule is vacuously free, yet the finder
returns no rooms — the inclusion iff of the claim fails at `slot_set = []`. -/
theorem find_free_empty_request_cex :
    find_free_rooms [("A", [("Monday", [("9AM-10AM", false)])])] "Monday" [] = []
    ∧ ("A", [("Monday", [("9AM-10AM", false)])]) ∈
        ([("A", [("Monday", [("9AM-10AM", false)])])] : RoomsData)
    ∧ List.lookup "Monday" [("Monday", [("9AM-10AM", false)])]
        = some [("9AM-10AM", false)]
    ∧ (∀ slot ∈ ([] : List String),
        List.lookup slot [("9AM-10AM", false)] = some false) := by
  exact ⟨by decide, by decide, by decide, by simp⟩

/-- C8 amended: for a nonempty requested slot set, a room appears in the
finder's result exactly when it has a schedule for the day and every
requested slot exists there and is free (its matched slots then being the
whole request); a room appears in the partial-match report exactly when
strictly between zero and all of the requested slots are free there, and
it is reported with exactly its free requested slots. -/
theorem find_free_rooms_spec (rooms : RoomsData) (day : String) (sel : List String)
    (hsel : sel ≠ []) :
    (∀ name ms, (name, ms) ∈ find_free_rooms rooms day sel ↔
      ∃ p ∈ rooms, p.1 = name ∧ ms = sel ∧ ∃ rs, p.2.lookup day = some rs ∧
        ∀ slot ∈ sel, rs.lookup slot = some false)
    ∧ (∀ name avail unav, (name, avail, unav) ∈ partly_free_rooms rooms day sel ↔
      ∃ p ∈ rooms, p.1 = name ∧ ∃ rs, p.2.lookup day = some rs ∧
        avail = freeRequested rs sel ∧ unav = unavailRequested rs sel avail ∧
        0 < avail.length ∧ avail.length < sel.length) := by
  have hselE : sel.isEmpty = false := by
    cases sel with
    | nil => exact absurd rfl hsel
    | cons a l => rfl
  constructor
  · intro name ms
    rw [find_free_rooms, accumOpt_eq_filterMap, List.mem_filterMap]
    constructor
    · rintro ⟨p, hp, hg⟩
      refine ⟨p, hp, ?_⟩
      unfold roomMatchEntry at hg
      cases hd : p.2.lookup day with
      | none => rw [hd] at hg; exact absurd hg (by simp)
      | some rs =>
        rw [hd] at hg
        simp only [Option.some_bind] at hg
        cases hcf : collectFree rs sel with
        | none => rw [hcf] at hg; exact absurd hg (by simp)
        | some avail =>
          rw [hcf] at hg
          simp only [Option.some_bind] at hg
          obtain ⟨rfl, hall⟩ := collectFree_eq_some_iff.mp hcf
          rw [hselE] at hg
          rw [if_neg Bool.false_ne_true] at hg
          simp only [Option.some.injEq, Prod.mk.injEq] at hg
          exact ⟨hg.1, hg.2.symm, rs, rfl, hall⟩
    · rintro ⟨p, hp, rfl, rfl, rs, hrs, hall⟩
      refine ⟨p, hp, ?_⟩
      unfold roomMatchEntry
      rw [hrs]
      simp only [Option.some_bind]
      rw [collectFree_eq_some_iff.mpr ⟨rfl, hall⟩]
      simp only [Option.some_bind]
      rw [hselE, if_neg Bool.false_ne_true]
  · intro name avail unav
    rw [partly_free_rooms, accumOpt_eq_filterMap, List.mem_filterMap]
    constructor
    · rintro ⟨p, hp, hg⟩
      refine ⟨p, hp, ?_⟩
      unfold roomPartEntry at hg
      cases hd : p.2.lookup day with
      | none => rw [hd] at hg; exact absurd hg (by simp)
      | some rs =>
        rw [hd] at hg
        simp only [Option.some_bind] at hg
        by_cases hcond : 0 < (freeRequested rs sel).length ∧
            (freeRequested rs sel).length < sel.length
        · rw [if_pos hcond] at hg
          simp only [Option.some.injEq, Prod.mk.injEq] at hg
          obtain ⟨hn, ha, hu⟩ := hg
          subst ha
          exact ⟨hn, rs, rfl, rfl, hu.symm, hcond.1, hcond.2⟩
        · rw [if_neg hcond] at hg
          exact absurd hg (by simp)
    · rintro ⟨p, hp, rfl, rs, hrs, rfl, rfl, hlen1, hlen2⟩
      refine ⟨p, hp, ?_⟩
      unfold roomPartEntry
      rw [hrs]
      simp only [Option.some_bind]
      rw [if_pos ⟨hlen1, hlen2⟩]

/-! ## Lemmas: the auto-expiry sweep decomposed -/

theorem lookup_map_keyfun (l : List (String × β)) (h : String → β → γ) (k : String) :
    List.lookup k (l.map (fun p => (p.1, h p.1 p.2))) = (List.lookup k l).map (h k) := by
  induction l with
  | nil => rfl
  | cons p rest ih =>
    simp only [List.map_cons, List.lookup]
    cases hkp : (k == p.1) with
    | true =>
      have h' : k = p.1 := eq_of_beq hkp
      subst h'
      simp
    | false => exact ih

theorem applyExpiry_append (weekday nowIso : String) (ps qs : List (String × String))
    (st : ExpSt) :
    applyExpiry weekday nowIso (ps ++ qs) st =
      applyExpiry weekday nowIso qs (applyExpiry weekday nowIso ps st) := by
  simp [applyExpiry, List.foldl_append]

theorem expireDaySlots_eq (room weekday nowIso : String) (nowT : SimpleTime)
    (sl : Slots) (st : ExpSt) :
    expireDaySlots room weekday nowIso nowT sl st =
      (expireMapL nowT sl, applyExpiry weekday nowIso (dayPairs room nowT sl) st) := by
  induction sl generalizing st with
  | nil => rfl
  | cons p rest ih =>
    obtain ⟨slot, b⟩ := p
    cases hcond : (b && shouldExpire nowT slot) with
    | true =>
      have hb : b = true := by
        cases b
        · simp at hcond
        · rfl
      have hs : shouldExpire nowT slot = true := by
        cases hse : shouldExpire nowT slot
        · rw [hse] at hcond; simp at hcond
        · rfl
      subst hb
      simp only [expireDaySlots, hcond, if_true, ih, expireMapL, List.map_cons,
        dayPairs, List.filter_cons, hs, List.map_cons]
      simp [applyExpiry, expireMapL, dayPairs]
    | false =>
      have hval : (b && !shouldExpire nowT slot) = b := by
        cases b
        · rfl
        · cases hse : shouldExpire nowT slot
          · rfl
          · rw [hse] at hcond; simp at hcond
      simp only [expireDaySlots, hcond, if_false, ih, expireMapL, List.map_cons,
        dayPairs, List.filter_cons, hcond]
      simp [applyExpiry, expireMapL, dayPairs, hval, hcond]

theorem reset_eq (rooms : RoomsData) (weekday : String) (nowT : SimpleTime)
    (nowIso : String) (st : ExpSt) :
    _reset_expired_bookings rooms weekday nowT nowIso st =
      (rooms.map (fun p => (p.1, expireSched weekday nowT p.2)),
       applyExpiry weekday nowIso (expiredPairs rooms weekday nowT) st) := by
  induction rooms generalizing st with
  | nil => rfl
  | cons p rest ih =>
    obtain ⟨room, sched⟩ := p
    cases hd : sched.lookup weekday with
    | none =>
      simp only [_reset_expired_bookings, hd, ih, expiredPairs, List.map_cons,
        expireSched, List.nil_append]
    | some sl =>
      simp only [_reset_expired_bookings, hd, expireDaySlots_eq, ih, expiredPairs,
        List.map_cons, expireSched, applyExpiry_append]

theorem applyExpiry_audit (weekday nowIso : String) (ps : List (String × String))
    (st : ExpSt) :
    (applyExpiry weekday nowIso ps st).audit =
      st.audit ++ expireEvents st.nextId nowIso weekday ps := by
  induction ps generalizing st with
  | nil => simp [applyExpiry, expireEvents]
  | cons rp rest ih =>
    simp only [applyExpiry, List.foldl_cons] at ih ⊢
    rw [ih]
    simp [expireOne, expireEvents, List.append_assoc]

theorem applyExpiry_nextId (weekday nowIso : String) (ps : List (String × String))
    (st : ExpSt) :
    (applyExpiry weekday nowIso ps st).nextId = st.nextId + ps.length := by
  induction ps generalizing st with
  | nil => simp [applyExpiry]
  | cons rp rest ih =>
    simp only [applyExpiry, List.foldl_cons] at ih ⊢
    rw [ih]
    simp [expireOne]
    omega

theorem applyExpiry_wl (weekday nowIso : String) (ps : List (String × String))
    (st : ExpSt) :
    (applyExpiry weekday nowIso ps st).wl =
      ps.foldl (fun wl rp => (_process_waitlist wl rp.1 weekday rp.2 nowIso).2) st.wl := by
  induction ps generalizing st with
  | nil => simp [applyExpiry]
  | cons rp rest ih =>
    simp only [applyExpiry, List.foldl_cons] at ih ⊢
    rw [ih]
    rfl

theorem expireEvents_length (n : Nat) (nowIso weekday : String)
    (ps : List (String × String)) :
    (expireEvents n nowIso weekday ps).length = ps.length := by
  induction ps generalizing n with
  | nil => rfl
  | cons rp rest ih => simp [expireEvents, ih]

theorem expireEvents_fields (n : Nat) (nowIso weekday : String)
    (ps : List (String × String)) :
    ∀ ev ∈ expireEvents n nowIso weekday ps,
      ev.actor = "SYSTEM" ∧ ev.action = "AUTO_EXPIRE" ∧ ev.timestamp = nowIso ∧
        n ≤ ev.id := by
  induction ps generalizing n with
  | nil => intro ev hev; simp [expireEvents] at hev
  | cons rp rest ih =>
    intro ev hev
    rcases List.mem_cons.mp hev with rfl | hev
    · exact ⟨rfl, rfl, rfl, Nat.le_refl _⟩
    · obtain ⟨ha, hb, hc, hd⟩ := ih (n + 1) ev hev
      exact ⟨ha, hb, hc, by omega⟩

theorem expireEvents_display (n : Nat) (nowIso weekday : String)
    (ps : List (String × String)) :
    (expireEvents n nowIso weekday ps).map
        (fun ev => (ev.actor, ev.action, ev.entity_type, ev.entity_id))
      = ps.map (fun rp => ("SYSTEM", "AUTO_EXPIRE", "ROOM_BOOKING",
          entityId rp.1 weekday rp.2)) := by
  induction ps generalizing n with
  | nil => rfl
  | cons rp rest ih => simp [expireEvents, ih, mkEvent]

theorem expireEvents_ids (n : Nat) (nowIso weekday : String)
    (ps : List (String × String)) :
    (expireEvents n nowIso weekday ps).map (fun ev => ev.id) =
      List.range' n ps.length := by
  induction ps generalizing n with
  | nil => rfl
  | cons rp rest ih => simp [expireEvents, ih, mkEvent, List.range']

theorem lookup_map_sched (rooms : RoomsData) (g : DaySched → DaySched) (k : String) :
    List.lookup k (rooms.map (fun p => (p.1, g p.2))) = (List.lookup k rooms).map g := by
  induction rooms with
  | nil => rfl
  | cons p rest ih =>
    simp only [List.map_cons, List.lookup]
    cases hkp : (k == p.1) with
    | true => simp
    | false => exact ih

theorem lookup_expireMapL (nowT : SimpleTime) (sl : Slots) (slot : String) :
    (expireMapL nowT sl).lookup slot =
      (sl.lookup slot).map (fun b => b && !shouldExpire nowT slot) := by
  induction sl with
  | nil => rfl
  | cons p rest ih =>
    simp only [expireMapL, List.map_cons, List.lookup]
    cases hkp : (slot == p.1) with
    | true =>
      have h' : slot = p.1 := eq_of_beq hkp
      subst h'
      simp
    | false => simpa [expireMapL] using ih

theorem lookupSlot_expire (rooms : RoomsData) (weekday : String) (nowT : SimpleTime)
    (room day slot : String) :
    lookupSlot (rooms.map (fun p => (p.1, expireSched weekday nowT p.2))) room day slot
      = (lookupSlot rooms room day slot).map
          (fun b => b && !((day == weekday) && shouldExpire nowT slot)) := by
  simp only [lookupSlot]
  rw [lookup_map_sched]
  cases hr : rooms.lookup room with
  | none => simp
  | some sched =>
    simp only [Option.map_some', Option.some_bind]
    unfold expireSched
    cases hd : sched.lookup weekday with
    | none =>
      cases hday : (day == weekday) with
      | true =>
        have hde : day = weekday := eq_of_beq hday
        subst hde
        rw [hd]
        simp
      | false =>
        cases hdy : sched.lookup day with
        | none => simp
        | some sl =>
          simp only [Option.some_bind, Option.map_some']
          cases hsl : sl.lookup slot <;> simp [hsl]
    | some sl =>
      rw [lookup_updAssoc]
      cases hday : (day == weekday) with
      | true =>
        have hde : day = weekday := eq_of_beq hday
        subst hde
        rw [hd]
        simp only [Option.map_some', Option.some_bind, beq_self_eq_true]
        rw [if_pos trivial, lookup_expireMapL]
        cases hsl : sl.lookup slot <;> simp
      | false =>
        cases hdy : sched.lookup day with
        | none => simp
        | some sl' =>
          simp only [Option.map_some', Option.some_bind]
          rw [if_neg Bool.false_ne_true]
          cases hsl : sl'.lookup slot <;> simp [hsl]

theorem mem_dayPairs {room : String} {nowT : SimpleTime} {sl : Slots}
    {rp : String × String} :
    rp ∈ dayPairs room nowT sl ↔
      ∃ q ∈ sl, q.2 = true ∧ shouldExpire nowT q.1 = true ∧ rp = (room, q.1) := by
  simp only [dayPairs, List.mem_map, List.mem_filter]
  constructor
  · rintro ⟨q, ⟨hq, hcond⟩, rfl⟩
    have hb : q.2 = true ∧ shouldExpire nowT q.1 = true := by
      revert hcond
      cases q.2 <;> cases shouldExpire nowT q.1 <;> simp
    exact ⟨q, hq, hb.1, hb.2, rfl⟩
  · rintro ⟨q, hq, h1, h2, rfl⟩
    exact ⟨q, ⟨hq, by simp [h1, h2]⟩, rfl⟩

theorem mem_expiredPairs {rooms : RoomsData} {weekday : String} {nowT : SimpleTime}
    {rp : String × String} :
    rp ∈ expiredPairs rooms weekday nowT ↔
      ∃ p ∈ rooms, ∃ sl, p.2.lookup weekday = some sl ∧
        ∃ q ∈ sl, q.2 = true ∧ shouldExpire nowT q.1 = true ∧ rp = (p.1, q.1) := by
  induction rooms with
  | nil => simp [expiredPairs]
  | cons p rest ih =>
    obtain ⟨room, sched⟩ := p
    simp only [expiredPairs, List.mem_append, ih, List.mem_cons]
    constructor
    · rintro (h | ⟨p, hp, sl, hsl, q, hq, h1, h2, rfl⟩)
      · cases hd : sched.lookup weekday with
        | none => rw [hd] at h; simp at h
        | some sl =>
          rw [hd] at h
          obtain ⟨q, hq, h1, h2, rfl⟩ := mem_dayPairs.mp h
          exact ⟨(room, sched), Or.inl rfl, sl, hd, q, hq, h1, h2, rfl⟩
      · exact ⟨p, Or.inr hp, sl, hsl, q, hq, h1, h2, rfl⟩
    · rintro ⟨p, hp | hp, sl, hsl, q, hq, h1, h2, rfl⟩
      · subst hp
        left
        rw [hsl]
        exact mem_dayPairs.mpr ⟨q, hq, h1, h2, rfl⟩
      · right
        exact ⟨p, hp, sl, hsl, q, hq, h1, h2, rfl⟩

theorem updAssoc_updAssoc (l : List (String × β)) (k : String) (f g : β → β) :
    updAssoc (updAssoc l k f) k g = updAssoc l k (fun v => g (f v)) := by
  simp only [updAssoc, List.map_map]
  apply List.map_congr_left
  intro p _
  by_cases h : (p.1 == k) = true
  · simp [Function.comp, h]
  · have h' : (p.1 == k) = false := by
      cases hh : (p.1 == k)
      · rfl
      · exact absurd hh h
    simp [Function.comp, h']

theorem expireMapL_idem (nowT : SimpleTime) (sl : Slots) :
    expireMapL nowT (expireMapL nowT sl) = expireMapL nowT sl := by
  induction sl with
  | nil => rfl
  | cons p rest ih =>
    simp only [expireMapL, List.map_cons, List.cons.injEq] at ih ⊢
    refine ⟨?_, ih⟩
    refine congrArg _ ?_
    cases p.2 <;> cases shouldExpire nowT p.1 <;> rfl

theorem expireSched_idem (weekday : String) (nowT : SimpleTime) (sched : DaySched) :
    expireSched weekday nowT (expireSched weekday nowT sched)
      = expireSched weekday nowT sched := by
  cases hd : sched.lookup weekday with
  | none =>
    have h1 : expireSched weekday nowT sched = sched := by
      simp [expireSched, hd]
    rw [h1, h1]
  | some sl =>
    have h1 : expireSched weekday nowT sched
        = updAssoc sched weekday (fun _ => expireMapL nowT sl) := by
      simp [expireSched, hd]
    have hlk : (updAssoc sched weekday (fun _ => expireMapL nowT sl)).lookup weekday
        = some (expireMapL nowT sl) := by
      rw [lookup_updAssoc_self, hd]
      rfl
    rw [h1]
    have h2 : expireSched weekday nowT (updAssoc sched weekday (fun _ => expireMapL nowT sl))
        = updAssoc (updAssoc sched weekday (fun _ => expireMapL nowT sl)) weekday
            (fun _ => expireMapL nowT (expireMapL nowT sl)) := by
      simp [expireSched, hlk]
    rw [h2, updAssoc_updAssoc]
    simp only [expireMapL_idem]

theorem dayPairs_expireMapL (room : String) (nowT : SimpleTime) (sl : Slots) :
    dayPairs room nowT (expireMapL nowT sl) = [] := by
  simp only [dayPairs, expireMapL, List.filter_map]
  have h : sl.filter ((fun p => p.2 && shouldExpire nowT p.1) ∘
      (fun p => (p.1, p.2 && !shouldExpire nowT p.1))) = [] := by
    apply List.filter_eq_nil_iff.mpr
    intro q _
    simp only [Function.comp]
    cases q.2 <;> cases shouldExpire nowT q.1 <;> simp
  rw [h]
  rfl

theorem expiredPairs_after (rooms : RoomsData) (weekday : String) (nowT : SimpleTime) :
    expiredPairs (rooms.map (fun p => (p.1, expireSched weekday nowT p.2))) weekday nowT
      = [] := by
  induction rooms with
  | nil => rfl
  | cons p rest ih =>
    obtain ⟨room, sched⟩ := p
    simp only [List.map_cons, expiredPairs, ih, List.append_nil]
    cases hd : sched.lookup weekday with
    | none =>
      have h1 : expireSched weekday nowT sched = sched := by
        simp [expireSched, hd]
      rw [h1, hd]
    | some sl =>
      have hlk : (expireSched weekday nowT sched).lookup weekday
          = some (expireMapL nowT sl) := by
        simp only [expireSched, hd]
        rw [lookup_updAssoc_self, hd]
        rfl
      rw [hlk]
      exact dayPairs_expireMapL room nowT sl

theorem rooms_expire_idem (rooms : RoomsData) (weekday : String) (nowT : SimpleTime) :
    (rooms.map (fun p => (p.1, expireSched weekday nowT p.2))).map
        (fun p => (p.1, expireSched weekday nowT p.2))
      = rooms.map (fun p => (p.1, expireSched weekday nowT p.2)) := by
  rw [List.map_map]
  apply List.map_congr_left
  intro p _
  simp [Function.comp, expireSched_idem]

/-- C5: one sweep frees exactly the slots of today's weekday that are
occupied, whose label parses, and whose end time has passed; each freed
(room, slot) pair yields one AUTO_EXPIRE audit event for the SYSTEM actor
with the composite entity id and one waitlist promotion, in sweep order;
a slot whose label fails to parse is never freed and stays present. -/
theorem auto_expire_spec (rooms : RoomsData) (weekday : String) (nowT : SimpleTime)
    (nowIso : String) (st : ExpSt) :
    (∀ room day slot,
      lookupSlot (_reset_expired_bookings rooms weekday nowT nowIso st).1 room day slot
        = (lookupSlot rooms room day slot).map
            (fun b => b && !((day == weekday) && shouldExpire nowT slot)))
    ∧ (∀ room day slot, _slot_to_time_range slot = none →
        lookupSlot (_reset_expired_bookings rooms weekday nowT nowIso st).1 room day slot
          = lookupSlot rooms room day slot)
    ∧ (_reset_expired_bookings rooms weekday nowT nowIso st).2.audit
        = st.audit ++ expireEvents st.nextId nowIso weekday
            (expiredPairs rooms weekday nowT)
    ∧ (∀ n ps, (expireEvents n nowIso weekday ps).map
          (fun ev => (ev.actor, ev.action, ev.entity_type, ev.entity_id))
        = ps.map (fun rp => ("SYSTEM", "AUTO_EXPIRE", "ROOM_BOOKING",
            entityId rp.1 weekday rp.2)))
    ∧ (_reset_expired_bookings rooms weekday nowT nowIso st).2.wl
        = (expiredPairs rooms weekday nowT).foldl
            (fun wl rp => (_process_waitlist wl rp.1 weekday rp.2 nowIso).2) st.wl
    ∧ (∀ rp, rp ∈ expiredPairs rooms weekday nowT ↔
        ∃ p ∈ rooms, ∃ sl, p.2.lookup weekday = some sl ∧
          ∃ q ∈ sl, q.2 = true ∧ shouldExpire nowT q.1 = true ∧ rp = (p.1, q.1)) := by
  refine ⟨?_, ?_, ?_, ?_, ?_, ?_⟩
  · intro room day slot
    rw [reset_eq]
    exact lookupSlot_expire rooms weekday nowT room day slot
  · intro room day slot hp
    rw [reset_eq]
    have hmain := lookupSlot_expire rooms weekday nowT room day slot
    have hse : shouldExpire nowT slot = false := by simp [shouldExpire, hp]
    rw [hse] at hmain
    simp only [Bool.and_false, Bool.not_false, Bool.and_true] at hmain
    rw [hmain]
    cases lookupSlot rooms room day slot <;> rfl
  · rw [reset_eq]
    exact applyExpiry_audit weekday nowIso _ st
  · intro n ps
    exact expireEvents_display n nowIso weekday ps
  · rw [reset_eq]
    exact applyExpiry_wl weekday nowIso _ st
  · intro rp
    exact mem_expiredPairs

/-- C6: the sweep is idempotent — a second sweep at the same instant
leaves the schedule, the audit log, the waitlist and the id supply
unchanged, frees nothing and appends no AUTO_EXPIRE event. -/
theorem auto_expire_idempotent (rooms : RoomsData) (weekday : String) (nowT : SimpleTime)
    (nowIso nowIso2 : String) (st : ExpSt) :
    _reset_expired_bookings (_reset_expired_bookings rooms weekday nowT nowIso st).1
        weekday nowT nowIso2
        ⟨(_reset_expired_bookings rooms weekday nowT nowIso st).2.audit,
         (_reset_expired_bookings rooms weekday nowT nowIso st).2.wl,
         (_reset_expired_bookings rooms weekday nowT nowIso st).2.nextId, [], false⟩
      = ((_reset_expired_bookings rooms weekday nowT nowIso st).1,
         ⟨(_reset_expired_bookings rooms weekday nowT nowIso st).2.audit,
          (_reset_expired_bookings rooms weekday nowT nowIso st).2.wl,
          (_reset_expired_bookings rooms weekday nowT nowIso st).2.nextId, [], false⟩) := by
  rw [reset_eq rooms weekday nowT nowIso st]
  rw [reset_eq]
  rw [expiredPairs_after, rooms_expire_idem]
  rfl

/-! ## Lemmas: result and state of a booking or cancellation attempt -/

theorem book_result_state (s : SysState) (room day slot actor title purpose now : String)
    (attendees : Nat) (notifyMe : Bool) :
    (lookupSlot s.rooms room day slot = some false ∧
      (book_slot_logic s room day slot actor title purpose attendees notifyMe now).1
        = BookResult.booked ∧
      (book_slot_logic s room day slot actor title purpose attendees notifyMe now).2.audit
        = s.audit ++ [mkEvent s.nextId now actor "BOOK" "ROOM_BOOKING"
            (entityId room day slot)
            (.bookInfo (if title == "" then "Untitled Booking" else title)
              purpose attendees notifyMe)])
    ∨ ((book_slot_logic s room day slot actor title purpose attendees notifyMe now).1
        ≠ BookResult.booked ∧
      (book_slot_logic s room day slot actor title purpose attendees notifyMe now).2 = s) := by
  cases h1 : s.rooms.lookup room with
  | none =>
    right
    have h : book_slot_logic s room day slot actor title purpose attendees notifyMe now
        = (BookResult.keyError, s) := by
      simp [book_slot_logic, h1]
    rw [h]
    exact ⟨by simp, rfl⟩
  | some sched =>
    cases h2 : sched.lookup day with
    | none =>
      right
      have h : book_slot_logic s room day slot actor title purpose attendees notifyMe now
          = (BookResult.keyError, s) := by
        simp [book_slot_logic, h1, h2]
      rw [h]
      exact ⟨by simp, rfl⟩
    | some sl =>
      cases h3 : sl.lookup slot with
      | none =>
        right
        have h : book_slot_logic s room day slot actor title purpose attendees notifyMe now
            = (BookResult.stale, s) := by
          simp [book_slot_logic, h1, h2, h3]
        rw [h]
        exact ⟨by simp, rfl⟩
      | some b =>
        cases b with
        | false =>
          left
          refine ⟨by simp [lookupSlot, h1, h2, h3], ?_, ?_⟩
          · rw [book_succeeds actor title purpose now attendees notifyMe h1 h2 h3]
          · rw [book_succeeds actor title purpose now attendees notifyMe h1 h2 h3]
        | true =>
          right
          rw [book_stale actor title purpose now attendees notifyMe h1 h2 h3]
          exact ⟨by simp, rfl⟩

theorem cancel_result_state (s : SysState) (room day slot actor reason now : String) :
    (lookupSlot s.rooms room day slot = some true ∧
      (∃ u, (_cancel_booking s room day slot actor reason now).1
        = CancelResult.cancelled u) ∧
      (_cancel_booking s room day slot actor reason now).2.audit
        = s.audit ++ [mkEvent s.nextId now actor "CANCEL" "ROOM_BOOKING"
            (entityId room day slot) (.cancelInfo reason now)])
    ∨ ((∀ u, (_cancel_booking s room day slot actor reason now).1
        ≠ CancelResult.cancelled u) ∧
      (_cancel_booking s room day slot actor reason now).2 = s) := by
  cases h1 : s.rooms.lookup room with
  | none =>
    right
    rw [cancel_invalid_room day slot actor reason now h1]
    exact ⟨by simp, rfl⟩
  | some sched =>
    cases h2 : sched.lookup day with
    | none =>
      right
      rw [cancel_invalid_day slot actor reason now h1 h2]
      exact ⟨by simp, rfl⟩
    | some sl =>
      cases h3 : sl.lookup slot with
      | none =>
        right
        rw [cancel_invalid_slot actor reason now h1 h2 h3]
        exact ⟨by simp, rfl⟩
      | some b =>
        cases b with
        | false =>
          right
          rw [cancel_not_booked actor reason now h1 h2 h3]
          exact ⟨by simp, rfl⟩
        | true =>
          left
          refine ⟨by simp [lookupSlot, h1, h2, h3], ?_, ?_⟩
          · rw [cancel_succeeds actor reason now h1 h2 h3]
            exact ⟨_, rfl⟩
          · rw [cancel_succeeds actor reason now h1 h2 h3]

/-! ## C10: the audit log is append-only -/

/-- C10 counterexample: one AutoExpire sweep that frees two slots is a
single mutating operation appending two audit events, not exactly one. -/
theorem audit_autoexpire_two_events_cex :
    ((_reset_expired_bookings
        [("R", [("Monday", [("9AM-10AM", true), ("10AM-11AM", true)])])]
        "Monday" ⟨12, 0⟩ "T" ⟨[], [], 0, [], false⟩).2).audit.length = 2
    ∧ ((_reset_expired_bookings
        [("R", [("Monday", [("9AM-10AM", true), ("10AM-11AM", true)])])]
        "Monday" ⟨12, 0⟩ "T" ⟨[], [], 0, [], false⟩).2).updated = true := by
  exact ⟨by decide, by decide⟩

/-- C10 amended: each mutating operation only ever appends to the audit
log, one event per mutation it performs: Book and Cancel append exactly
one BOOK / CANCEL event on success and none on failure (leaving the state
untouched); an AutoExpire sweep appends exactly one AUTO_EXPIRE event per
slot it frees; search logging appends exactly one SEARCH event.  Every
appended event carries the current timestamp and a freshly supplied id
distinct from every existing event's id (and, within a sweep, pairwise
distinct), and all previously appended events are preserved unchanged. -/
theorem audit_append_only_per_mutation
    (s : SysState)
    (room day slot actor reason title purpose dateStr slotsJoined now weekday nowIso : String)
    (attendees slotsCount : Nat) (notifyMe : Bool) (nowT : SimpleTime)
    (hid : ∀ e ∈ s.audit, e.id < s.nextId) :
    ((book_slot_logic s room day slot actor title purpose attendees notifyMe now).1
        = BookResult.booked →
      ∃ ev, (book_slot_logic s room day slot actor title purpose attendees notifyMe now).2.audit
          = s.audit ++ [ev] ∧ ev.action = "BOOK" ∧ ev.timestamp = now
        ∧ ev.entity_id = entityId room day slot ∧ ∀ e ∈ s.audit, e.id ≠ ev.id)
    ∧ ((book_slot_logic s room day slot actor title purpose attendees notifyMe now).1
        ≠ BookResult.booked →
      (book_slot_logic s room day slot actor title purpose attendees notifyMe now).2 = s)
    ∧ ((∃ u, (_cancel_booking s room day slot actor reason now).1
        = CancelResult.cancelled u) →
      ∃ ev, (_cancel_booking s room day slot actor reason now).2.audit = s.audit ++ [ev]
        ∧ ev.action = "CANCEL" ∧ ev.timestamp = now
        ∧ ev.entity_id = entityId room day slot ∧ ∀ e ∈ s.audit, e.id ≠ ev.id)
    ∧ ((∀ u, (_cancel_booking s room day slot actor reason now).1
        ≠ CancelResult.cancelled u) →
      (_cancel_booking s room day slot actor reason now).2 = s)
    ∧ ((_reset_expired_bookings s.rooms weekday nowT nowIso
          ⟨s.audit, s.waitlist, s.nextId, [], false⟩).2.audit
        = s.audit ++ expireEvents s.nextId nowIso weekday (expiredPairs s.rooms weekday nowT)
      ∧ (expireEvents s.nextId nowIso weekday (expiredPairs s.rooms weekday nowT)).length
          = (expiredPairs s.rooms weekday nowT).length
      ∧ (∀ ev ∈ expireEvents s.nextId nowIso weekday (expiredPairs s.rooms weekday nowT),
          ev.action = "AUTO_EXPIRE" ∧ ev.timestamp = nowIso ∧ ∀ e ∈ s.audit, e.id ≠ ev.id)
      ∧ ((expireEvents s.nextId nowIso weekday (expiredPairs s.rooms weekday nowT)).map
          (fun ev => ev.id)).Nodup)
    ∧ ((log_search s actor dateStr slotsJoined slotsCount now).audit
        = s.audit ++ [mkEvent s.nextId now actor "SEARCH" "FREE_ROOMS"
            (dateStr ++ "|" ++ slotsJoined) (.searchInfo slotsCount)]
      ∧ ∀ e ∈ s.audit, e.id ≠ (mkEvent s.nextId now actor "SEARCH" "FREE_ROOMS"
            (dateStr ++ "|" ++ slotsJoined) (.searchInfo slotsCount)).id) := by
  refine ⟨?_, ?_, ?_, ?_, ⟨?_, ?_, ?_, ?_⟩, ?_, ?_⟩
  · intro h
    rcases book_result_state s room day slot actor title purpose now attendees notifyMe with
      ⟨_, _, haudit⟩ | ⟨hne, _⟩
    · refine ⟨_, haudit, rfl, rfl, rfl, ?_⟩
      intro e he
      have := hid e he
      simp only [mkEvent]
      omega
    · exact absurd h hne
  · intro h
    rcases book_result_state s room day slot actor title purpose now attendees notifyMe with
      ⟨_, hb, _⟩ | ⟨_, hst⟩
    · exact absurd hb h
    · exact hst
  · intro h
    rcases cancel_result_state s room day slot actor reason now with
      ⟨_, _, haudit⟩ | ⟨hne, _⟩
    · refine ⟨_, haudit, rfl, rfl, rfl, ?_⟩
      intro e he
      have := hid e he
      simp only [mkEvent]
      omega
    · obtain ⟨u, hu⟩ := h
      exact absurd hu (hne u)
  · intro h
    rcases cancel_result_state s room day slot actor reason now with
      ⟨_, ⟨u, hu⟩, _⟩ | ⟨_, hst⟩
    · exact absurd hu (h u)
    · exact hst
  · rw [reset_eq]
    exact applyExpiry_audit weekday nowIso _ _
  · exact expireEvents_length _ _ _ _
  · intro ev hev
    obtain ⟨_, hact, hts, hle⟩ := expireEvents_fields s.nextId nowIso weekday _ ev hev
    refine ⟨hact, hts, ?_⟩
    intro e he
    have := hid e he
    omega
  · rw [expireEvents_ids]
    exact List.nodup_range' _ _ _ (by omega)
  · rfl
  · intro e he
    have := hid e he
    simp only [mkEvent]
    omega

/-! ## Witnesses -/

theorem book_then_rebook_stale_witness :
    (book_slot_logic stW "Room1" "Monday" "9AM-10AM" "a@dept.edu" "CS101" "Class/Lecture"
        20 true "T1").1 = BookResult.booked
    ∧ is_free (book_slot_logic stW "Room1" "Monday" "9AM-10AM" "a@dept.edu" "CS101"
        "Class/Lecture" 20 true "T1").2.rooms "Room1" "Monday" "9AM-10AM" = false
    ∧ book_slot_logic (book_slot_logic stW "Room1" "Monday" "9AM-10AM" "a@dept.edu" "CS101"
        "Class/Lecture" 20 true "T1").2 "Room1" "Monday" "9AM-10AM" "b@dept.edu" "X"
        "Meeting" 5 false "T2"
      = (BookResult.stale, (book_slot_logic stW "Room1" "Monday" "9AM-10AM" "a@dept.edu"
          "CS101" "Class/Lecture" 20 true "T1").2) :=
  book_then_rebook_stale stW "Room1" "Monday" "9AM-10AM" "a@dept.edu" "CS101"
    "Class/Lecture" "T1" "b@dept.edu" "X" "Meeting" "T2" 20 5 true false (by decide)

theorem book_cancel_round_trip_witness :
    (∃ notified, (_cancel_booking (book_slot_logic stW "Room1" "Monday" "9AM-10AM"
        "a@dept.edu" "CS101" "Class/Lecture" 20 true "T1").2 "Room1" "Monday" "9AM-10AM"
        "a@dept.edu" "room change" "T2").1 = CancelResult.cancelled notified)
    ∧ is_free (_cancel_booking (book_slot_logic stW "Room1" "Monday" "9AM-10AM"
        "a@dept.edu" "CS101" "Class/Lecture" 20 true "T1").2 "Room1" "Monday" "9AM-10AM"
        "a@dept.edu" "room change" "T2").2.rooms "Room1" "Monday" "9AM-10AM" = true :=
  book_cancel_round_trip stW "Room1" "Monday" "9AM-10AM" "a@dept.edu" "CS101"
    "Class/Lecture" "T1" "a@dept.edu" "room change" "T2" 20 true (by decide)

theorem slot_parse_uses_end_meridiem_witness :
    _slot_to_time_range (mkLabel 11 false 12 true) = some (applyEndMeridiem 11 12 true) :=
  slot_parse_uses_end_meridiem.1 11 12 false true (by decide) (by decide) (by decide)
    (by decide)

theorem waitlist_promotion_fifo_witness :
    (_process_waitlist wlW "R" "Monday" "9AM-10AM" "N1").1 = some "first@dept.edu"
    ∧ (_process_waitlist (_process_waitlist wlW "R" "Monday" "9AM-10AM" "N1").2
        "R" "Monday" "9AM-10AM" "N2").1 = some "second@dept.edu" :=
  (waitlist_promotion_fifo wlW "R" "Monday" "9AM-10AM" "N1" "N2").2.2 e1W e2W
    (by decide) (by decide) (by decide) (by decide) (by decide) (by decide) (by decide)

theorem auto_expire_spec_witness :
    lookupSlot (_reset_expired_bookings expW "Monday" ⟨12, 0⟩ "T"
        ⟨[], [], 0, [], false⟩).1 "R" "Monday" "bogus"
      = lookupSlot expW "R" "Monday" "bogus" :=
  (auto_expire_spec expW "Monday" ⟨12, 0⟩ "T" ⟨[], [], 0, [], false⟩).2.1
    "R" "Monday" "bogus" (by decide)

theorem find_free_rooms_spec_witness :
    (("A", ["9AM-10AM"]) ∈ find_free_rooms roomsABW "Monday" ["9AM-10AM"]) ↔
      ∃ p ∈ roomsABW, p.1 = "A" ∧ ["9AM-10AM"] = ["9AM-10AM"] ∧
        ∃ rs, p.2.lookup "Monday" = some rs ∧
          ∀ slot ∈ ["9AM-10AM"], rs.lookup slot = some false :=
  (find_free_rooms_spec roomsABW "Monday" ["9AM-10AM"] (by decide)).1 "A" ["9AM-10AM"]

theorem cancel_failure_atomic_witness :
    _cancel_booking stW "Room1" "Monday" "9AM-10AM" "a@dept.edu" "no" "T"
      = (CancelResult.notBooked, stW)
    ∧ _cancel_booking stW "X" "Monday" "9AM-10AM" "a@dept.edu" "no" "T"
      = (CancelResult.invalidDetails, stW) :=
  ⟨(cancel_failure_atomic stW "Room1" "Monday" "9AM-10AM" "a@dept.edu" "no" "T").1
      (by decide),
   (cancel_failure_atomic stW "X" "Monday" "9AM-10AM" "a@dept.edu" "no" "T").2
      (by decide)⟩

theorem audit_append_only_witness :
    (log_search stW "u@dept.edu" "2025-01-06" "9AM-10AM" 1 "T").audit
      = stW.audit ++ [mkEvent stW.nextId "T" "u@dept.edu" "SEARCH" "FREE_ROOMS"
          ("2025-01-06" ++ "|" ++ "9AM-10AM") (.searchInfo 1)]
    ∧ ∀ e ∈ stW.audit, e.id ≠ (mkEvent stW.nextId "T" "u@dept.edu" "SEARCH" "FREE_ROOMS"
          ("2025-01-06" ++ "|" ++ "9AM-10AM") (.searchInfo 1)).id :=
  (audit_append_only_per_mutation stW "Room1" "Monday" "9AM-10AM" "u@dept.edu" "r" "t"
    "p" "2025-01-06" "9AM-10AM" "T" "Monday" "T" 1 1 true ⟨12, 0⟩ (by decide)).2.2.2.2.2

end Dept
